import Mathlib

/-!
# Configuration Resolution & Repository-Metadata Injection — verification

This development embeds the configuration-resolution engine of the
pr-insight repository and the web client's review submission flow, and
proves the behavioural properties stated in the project documentation.

The repository itself ships only the consuming web client
(`web/src/app/page.tsx`, the API proxy route, `web/src/lib/api.ts`) and
the descriptive documentation of the resolution engine
(`docs/docs/core-abilities/metadata.md`, the configuration guide).  The
web-client parts are embedded directly from their TypeScript source;
the resolution engine itself (source loader, sanitizer, merger,
validator, discovery, context-block builder) is modelled from the
specification, as its implementation is not part of the visible tree.
-/

/-! ## Configuration values and mappings -/

/-- Modelled from the spec: a configuration value is a tagged union of
string, boolean, integer, or ordered list of strings (floats play no
role in any property considered here). -/
inductive ConfigValue
  | str (s : String)
  | boolVal (b : Bool)
  | intVal (n : Int)
  | strList (xs : List String)
deriving DecidableEq

/-- Modelled from the spec: a `ConfigMapping` sends a section name and a
key name to the value stored there, or `none` when the key is absent. -/
abbrev ConfigMapping := String → String → Option ConfigValue

/-- Modelled from the spec: the four configuration origins, in
precedence order wiki > local > global > defaults. -/
inductive SourceTag
  | defaultSrc
  | globalSrc
  | localSrc
  | wikiSrc
deriving DecidableEq

/-- Modelled from the spec: the merged mapping together with
per-key provenance (which source contributed the winning value). -/
structure EffectiveConfig where
  value : String → String → Option ConfigValue
  provenance : String → String → Option SourceTag

/-- Modelled from the spec: the merge is initialised from the
compiled-in defaults, every default key carrying `defaultSrc`
provenance. -/
def initFromDefaults (d : ConfigMapping) : EffectiveConfig where
  value := d
  provenance s k :=
    match d s k with
    | some _ => some .defaultSrc
    | none => none

/-- Modelled from the spec: applying one source on top of an
accumulated configuration overwrites exactly the (section, key) pairs
present in that source and records the source as their provenance;
all other keys fall through unchanged. -/
def applySource (tag : SourceTag) (src : ConfigMapping) (acc : EffectiveConfig) :
    EffectiveConfig where
  value s k :=
    match src s k with
    | some v => some v
    | none => acc.value s k
  provenance s k :=
    match src s k with
    | some _ => some tag
    | none => acc.provenance s k

/-- Modelled from the spec: the resolution algorithm — initialise from
defaults, then apply global, local and wiki in that fixed order, later
sources overriding earlier ones. -/
def resolveConfig (d g l w : ConfigMapping) : EffectiveConfig :=
  applySource .wikiSrc w
    (applySource .localSrc l
      (applySource .globalSrc g (initFromDefaults d)))

/-- The lookup the specification's precedence wording describes: the
value comes from the highest-precedence source in which the key is
present (wiki, then local, then global, then defaults). -/
def specLookup (d g l w : ConfigMapping) (s k : String) : Option ConfigValue :=
  match w s k with
  | some v => some v
  | none =>
    match l s k with
    | some v => some v
    | none =>
      match g s k with
      | some v => some v
      | none => d s k

/-- Modelled from the spec: merging defaults with the organisation's
global source — the first stage of a staged merge. -/
def mergeBase (d g : ConfigMapping) : EffectiveConfig :=
  applySource .globalSrc g (initFromDefaults d)

/-- Modelled from the spec: applying the local and wiki sources on top
of an already-merged base, in that order. -/
def applyUpper (base : EffectiveConfig) (l w : ConfigMapping) : EffectiveConfig :=
  applySource .wikiSrc w (applySource .localSrc l base)

/-- Modelled from the spec: the one-pass four-source merge — for every
(section, key) pair, take the value and provenance of the
highest-precedence source in which the key is present. -/
def mergeOnePass (d g l w : ConfigMapping) : EffectiveConfig where
  value s k := specLookup d g l w s k
  provenance s k :=
    match w s k with
    | some _ => some .wikiSrc
    | none =>
      match l s k with
      | some _ => some .localSrc
      | none =>
        match g s k with
        | some _ => some .globalSrc
        | none =>
          match d s k with
          | some _ => some .defaultSrc
          | none => none

/-! ## Wiki content sanitizer -/

/-- The backtick character, code point 96. -/
def backtickChar : Char := Char.ofNat 96

/-- The three-backtick fence that wiki rendering advice wraps
configuration content in. -/
def tripleBacktick : List Char := [backtickChar, backtickChar, backtickChar]

/-- The triple-quote wrapper alternative. -/
def tripleQuote : List Char := ['\"', '\"', '\"']

/-- Modelled from the spec: a delimiter wraps the content only when it
spans the entire content — the text starts and ends with the
delimiter, and is long enough for the two occurrences to be
disjoint. -/
def wrappedBy (d s : List Char) : Bool :=
  decide (6 ≤ s.length) && s.take 3 == d && s.drop (s.length - 3) == d

/-- Removes the outermost three characters on each side. -/
def unwrapOnce (s : List Char) : List Char :=
  (s.drop 3).take (s.length - 6)

/-- Modelled from the spec: the wiki-content sanitizer removes one
layer of surrounding triple-backtick or triple-quote wrapping when the
wrapping spans the entire content, and passes all other content
through unchanged. -/
def sanitizeWiki (s : List Char) : List Char :=
  if wrappedBy tripleBacktick s then unwrapOnce s
  else if wrappedBy tripleQuote s then unwrapOnce s
  else s

/-! ## Repository metadata and its validator -/

/-- Modelled from the spec: the `repository_metadata` section's fixed
schema after validation. -/
structure RepositoryMetadata where
  enabled : Bool
  repository_type : String
  technology_stack : List String
  maturity_level : String
  complexity_level : String
  custom_context : String
  best_practices_file : Option String
  guidelines_file : Option String
  context_enhancements : List String
  auto_discover_context : Bool
  max_context_files : Nat
deriving DecidableEq

/-- The compiled-in defaults of the `repository_metadata` section, from
the configuration guide's tables. -/
def defaultMetadata : RepositoryMetadata where
  enabled := true
  repository_type := "other"
  technology_stack := []
  maturity_level := "development"
  complexity_level := "moderate"
  custom_context := ""
  best_practices_file := none
  guidelines_file := none
  context_enhancements := []
  auto_discover_context := true
  max_context_files := 50

/-- The closed vocabulary of `repository_type`. -/
def repositoryTypes : List String :=
  ["application", "library", "framework", "tool", "documentation", "config", "other"]

/-- The closed vocabulary of `maturity_level`. -/
def maturityLevels : List String :=
  ["experimental", "development", "stable", "mature", "legacy"]

/-- The closed vocabulary of `complexity_level`. -/
def complexityLevels : List String :=
  ["simple", "moderate", "complex", "enterprise"]

/-- Modelled from the spec: a field-level validation warning naming the
offending (section, key, value). -/
structure ValidationWarning where
  sectionName : String
  key : String
  value : ConfigValue
deriving DecidableEq

/-- Modelled from the spec: a warning for a retained unrecognized key. -/
structure UnknownKeyWarning where
  sectionName : String
  key : String
deriving DecidableEq

/-- A section's raw contents as a finite key/value table. -/
abbrev SectionTable := List (String × ConfigValue)

/-- Looks a key up in a section table. -/
def lookupKey (m : SectionTable) (k : String) : Option ConfigValue :=
  (m.find? (fun p => p.1 == k)).map (·.2)

/-- Removes every entry of a key from a section table. -/
def removeKey (m : SectionTable) (k : String) : SectionTable :=
  m.filter (fun p => !(p.1 == k))

/-- Modelled from the spec: an enumerated field is checked against its
closed vocabulary; a value outside the vocabulary (or of the wrong
type) is replaced by the compiled-in default and reported in a warning
naming the section, key and offending value; an absent key silently
takes the default. -/
def validateEnumField (m : SectionTable) (key : String) (vocab : List String)
    (dflt : String) : String × List ValidationWarning :=
  match lookupKey m key with
  | none => (dflt, [])
  | some (.str s) =>
    if vocab.contains s then (s, [])
    else (dflt, [⟨"repository_metadata", key, .str s⟩])
  | some v => (dflt, [⟨"repository_metadata", key, v⟩])

/-- Modelled from the spec: a boolean field of the metadata schema. -/
def validateBoolField (m : SectionTable) (key : String) (dflt : Bool) :
    Bool × List ValidationWarning :=
  match lookupKey m key with
  | none => (dflt, [])
  | some (.boolVal b) => (b, [])
  | some v => (dflt, [⟨"repository_metadata", key, v⟩])

/-- Modelled from the spec: a free-form string field of the metadata
schema. -/
def validateStringField (m : SectionTable) (key : String) (dflt : String) :
    String × List ValidationWarning :=
  match lookupKey m key with
  | none => (dflt, [])
  | some (.str s) => (s, [])
  | some v => (dflt, [⟨"repository_metadata", key, v⟩])

/-- Modelled from the spec: an optional file-path field of the metadata
schema; the empty string means the same as absence. -/
def validatePathField (m : SectionTable) (key : String) :
    Option String × List ValidationWarning :=
  match lookupKey m key with
  | none => (none, [])
  | some (.str s) => (if s == "" then none else some s, [])
  | some v => (none, [⟨"repository_metadata", key, v⟩])

/-- Modelled from the spec: a non-negative integer field of the
metadata schema. -/
def validateNatField (m : SectionTable) (key : String) (dflt : Nat) :
    Nat × List ValidationWarning :=
  match lookupKey m key with
  | none => (dflt, [])
  | some (.intVal n) =>
    if 0 ≤ n then (n.toNat, []) else (dflt, [⟨"repository_metadata", key, .intVal n⟩])
  | some v => (dflt, [⟨"repository_metadata", key, v⟩])

/-- Modelled from the spec: an ordered list-of-strings field of the
metadata schema; ordering is preserved. -/
def validateStrListField (m : SectionTable) (key : String) :
    List String × List ValidationWarning :=
  match lookupKey m key with
  | none => ([], [])
  | some (.strList xs) => (xs, [])
  | some v => ([], [⟨"repository_metadata", key, v⟩])

/-- Splits the accumulated characters of one comma-separated segment. -/
def splitCommaAux : List Char → List Char → List String
  | [], acc => [String.mk acc.reverse]
  | c :: cs, acc =>
    if c = ',' then String.mk acc.reverse :: splitCommaAux cs []
    else splitCommaAux cs (c :: acc)

/-- Splits a comma-separated string into its segments. -/
def splitComma (s : String) : List String :=
  splitCommaAux s.toList []

/-- Modelled from the spec: `technology_stack` is declared either as a
comma-separated string (as in the configuration guide's examples) or
directly as a list of strings; declared order is preserved, and the
wrong type is replaced by the default with a warning. -/
def parseTechStack (m : SectionTable) : List String × List ValidationWarning :=
  match lookupKey m "technology_stack" with
  | none => ([], [])
  | some (.str s) => (if s == "" then [] else splitComma s, [])
  | some (.strList xs) => (xs, [])
  | some v => ([], [⟨"repository_metadata", "technology_stack", v⟩])

/-- The keys the `repository_metadata` schema recognizes. -/
def recognizedKeys : List String :=
  ["enabled", "repository_type", "technology_stack", "maturity_level",
   "complexity_level", "custom_context", "best_practices_file",
   "guidelines_file", "context_enhancements", "auto_discover_context",
   "max_context_files"]

/-- Modelled from the spec: the result of validating the
`repository_metadata` section — the validated metadata, the field-level
warnings, the unknown-key warnings, and the retained pass-through
entries for the unrecognized keys. -/
structure ValidationResult where
  metadata : RepositoryMetadata
  warnings : List ValidationWarning
  unknownWarnings : List UnknownKeyWarning
  passthrough : SectionTable

/-- Modelled from the spec: validation of the `repository_metadata`
section.  Every field is validated independently against its type or
closed vocabulary, a violation substitutes the compiled-in default for
that single field and records one warning, and unrecognized keys are
retained as pass-through values with an `UnknownKeyWarning`, never
dropped.  Validation never aborts: every field of the result is always
produced. -/
def validateMetadata (m : SectionTable) : ValidationResult :=
  let e := validateBoolField m "enabled" defaultMetadata.enabled
  let rt := validateEnumField m "repository_type" repositoryTypes defaultMetadata.repository_type
  let ts := parseTechStack m
  let ml := validateEnumField m "maturity_level" maturityLevels defaultMetadata.maturity_level
  let cl := validateEnumField m "complexity_level" complexityLevels defaultMetadata.complexity_level
  let cc := validateStringField m "custom_context" defaultMetadata.custom_context
  let bp := validatePathField m "best_practices_file"
  let gf := validatePathField m "guidelines_file"
  let ce := validateStrListField m "context_enhancements"
  let ad := validateBoolField m "auto_discover_context" defaultMetadata.auto_discover_context
  let mcf := validateNatField m "max_context_files" defaultMetadata.max_context_files
  let unknown := m.filter (fun p => !(recognizedKeys.contains p.1))
  { metadata :=
      { enabled := e.1
        repository_type := rt.1
        technology_stack := ts.1
        maturity_level := ml.1
        complexity_level := cl.1
        custom_context := cc.1
        best_practices_file := bp.1
        guidelines_file := gf.1
        context_enhancements := ce.1
        auto_discover_context := ad.1
        max_context_files := mcf.1 }
    warnings := e.2 ++ rt.2 ++ ts.2 ++ ml.2 ++ cl.2 ++ cc.2 ++ bp.2 ++ gf.2 ++ ce.2 ++ ad.2 ++ mcf.2
    unknownWarnings := unknown.map (fun p => ⟨"repository_metadata", p.1⟩)
    passthrough := unknown }

/-! ## Resolution policy (fail-closed / fail-open) -/

/-- Modelled from the spec: the caller's policy flag. -/
inductive Policy
  | failClosed
  | failOpen
deriving DecidableEq

/-- Modelled from the spec: the parse outcome of one optional source —
absent, parsed into a mapping, or present but malformed. -/
inductive ParseOutcome
  | absent
  | parsed (m : ConfigMapping)
  | malformed

/-- Whether a parse outcome is the malformed one. -/
def ParseOutcome.isMalformed : ParseOutcome → Bool
  | .malformed => true
  | _ => false

/-- The mapping a parse outcome contributes to the merge: a malformed
or absent source contributes nothing. -/
def ParseOutcome.toMapping : ParseOutcome → ConfigMapping
  | .parsed m => m
  | _ => fun _ _ => none

/-- Modelled from the spec: a resolution failure identifying the
offending source. -/
inductive ResolutionError
  | malformedSource (tag : SourceTag)
deriving DecidableEq

/-- Modelled from the spec: a warning attached to a best-effort
resolution whose named source was malformed and treated as absent. -/
inductive ResolutionWarning
  | malformedSourceWarning (tag : SourceTag)
deriving DecidableEq

/-- Modelled from the spec: a successful resolution — the merged
configuration plus the attached warnings. -/
structure Resolution where
  config : EffectiveConfig
  warnings : List ResolutionWarning

/-- The first malformed source among global, local, wiki, if any. -/
def firstMalformed (g l w : ParseOutcome) : Option SourceTag :=
  if g.isMalformed then some .globalSrc
  else if l.isMalformed then some .localSrc
  else if w.isMalformed then some .wikiSrc
  else none

/-- The warnings attached under best-effort resolution, one per
malformed source. -/
def malformedWarnings (g l w : ParseOutcome) : List ResolutionWarning :=
  (if g.isMalformed then [.malformedSourceWarning .globalSrc] else []) ++
  (if l.isMalformed then [.malformedSourceWarning .localSrc] else []) ++
  (if w.isMalformed then [.malformedSourceWarning .wikiSrc] else [])

/-- Modelled from the spec: resolution under a policy.  Fail-closed
escalates a malformed source as a `ResolutionError.malformedSource`
naming it; fail-open treats every malformed source as absent, merges
the rest, and attaches a warning per malformed source. -/
def resolveWithPolicy (pol : Policy) (d : ConfigMapping) (g l w : ParseOutcome) :
    Except ResolutionError Resolution :=
  match pol with
  | .failClosed =>
    match firstMalformed g l w with
    | some tag => .error (.malformedSource tag)
    | none => .ok ⟨resolveConfig d g.toMapping l.toMapping w.toMapping, []⟩
  | .failOpen =>
    .ok ⟨resolveConfig d g.toMapping l.toMapping w.toMapping, malformedWarnings g l w⟩

/-! ## Context discovery -/

/-- Lexicographic order on character lists, by code point. -/
def lexLe : List Char → List Char → Bool
  | [], _ => true
  | _ :: _, [] => false
  | a :: as, b :: bs =>
    if a = b then lexLe as bs else decide (a < b)

/-- Lexicographic order on file paths. -/
def pathLe (a b : String) : Prop := lexLe a.toList b.toList = true

instance : DecidableRel pathLe := fun a b =>
  inferInstanceAs (Decidable (lexLe a.toList b.toList = true))

/-- Modelled from the spec: discovery enumerates the repository's files
in deterministic lexicographic path order and inspects at most the
first `maxFiles` of them. -/
def inspectedFiles (files : List String) (maxFiles : Nat) : List String :=
  (List.insertionSort pathLe files).take maxFiles

/-- Modelled from the spec: the advisory hints drawn from the inspected
files, via a per-file hint extractor for build and dependency
manifests. -/
def discoverHints (hintOf : String → List String) (files : List String)
    (maxFiles : Nat) : List String :=
  (inspectedFiles files maxFiles).flatMap hintOf

/-- Modelled from the spec: applying discovery to validated metadata.
Discovery runs only when `auto_discover_context` is set; its results
may only append entries not already declared to `technology_stack`,
and no other field is touched. -/
def applyDiscovery (hintOf : String → List String) (meta : RepositoryMetadata)
    (files : List String) : RepositoryMetadata :=
  if meta.auto_discover_context then
    { meta with technology_stack :=
        meta.technology_stack ++
          ((discoverHints hintOf files meta.max_context_files).filter
            (fun h => decide (h ∉ meta.technology_stack))) }
  else meta

/-! ## Context block builder -/

/-- The leading labelled lines of the context block, in the order shown
in the documentation's injected-prompt example. -/
def contextHeaderLines (meta : RepositoryMetadata) : List String :=
  ["## Repository Context",
   "- **Type**: " ++ meta.repository_type,
   "- **Technology Stack**: " ++ String.intercalate "," meta.technology_stack,
   "- **Maturity Level**: " ++ meta.maturity_level,
   "- **Complexity Level**: " ++ meta.complexity_level,
   "- **Custom Context**: " ++ meta.custom_context]

/-- Renders the context enhancements one per line, preserving their
original order. -/
def renderEnhancementLines : List String → List String
  | [] => []
  | e :: es => ("- " ++ e) :: renderEnhancementLines es

/-- The optional excerpt section for a referenced file whose content
was fetched; an unavailable file is omitted. -/
def excerptLines (title : String) : Option String → List String
  | none => []
  | some content => ["", "## " ++ title, content]

/-- Modelled from the docs' injected-prompt example: the context block
rendered from validated metadata and the fetched contents of the
referenced best-practices and guidelines files. -/
def buildContextBlock (meta : RepositoryMetadata)
    (bestPractices guidelines : Option String) : String :=
  String.intercalate "\n"
    (contextHeaderLines meta ++
      ("" :: "## Context Enhancements" ::
        renderEnhancementLines meta.context_enhancements) ++
      excerptLines "Best Practices" bestPractices ++
      excerptLines "Guidelines" guidelines)

/-- The line list in the order the specification states: repository
type, technology stack comma-joined in declared order, maturity level,
complexity level, custom context, then each context enhancement on its
own line in original order, then the optional best-practices and
guidelines excerpts. -/
def specOrderedLines (meta : RepositoryMetadata)
    (bestPractices guidelines : Option String) : List String :=
  ["## Repository Context",
   "- **Type**: " ++ meta.repository_type,
   "- **Technology Stack**: " ++ String.intercalate "," meta.technology_stack,
   "- **Maturity Level**: " ++ meta.maturity_level,
   "- **Complexity Level**: " ++ meta.complexity_level,
   "- **Custom Context**: " ++ meta.custom_context, "",
   "## Context Enhancements"] ++
  meta.context_enhancements.map (fun e => "- " ++ e) ++
  excerptLines "Best Practices" bestPractices ++
  excerptLines "Guidelines" guidelines

/-! ## Review-job lifecycle (web client, `page.tsx` and `lib/api.ts`) -/

/-- The job status union of `PRReviewResponse` in the web client's API
wrapper: exactly pending, processing, completed, failed. -/
inductive JobStatus
  | pending
  | processing
  | completed
  | failed
deriving DecidableEq

/-- The terminal statuses, on which `handleSubmit`'s polling callback
clears its interval: completed and failed. -/
def JobStatus.isTerminal : JobStatus → Bool
  | .completed => true
  | .failed => true
  | _ => false

/-- The fixed polling interval of `handleSubmit`, in milliseconds. -/
def pollIntervalMs : Nat := 2000

/-- The overall polling timeout of `handleSubmit`, in milliseconds. -/
def pollTimeoutMs : Nat := 30000

/-- The number of status polls the interval can issue before the
timeout clears it. -/
def maxPolls : Nat := pollTimeoutMs / pollIntervalMs

/-- The number of polls the interval callback issues, given the status
each poll observes: polling starts at poll index `i` with `fuel` polls
left before the timeout clears the interval, and a terminal
observation clears the interval at once. -/
def pollsIssued (polled : Nat → JobStatus) : Nat → Nat → Nat
  | _, 0 => 0
  | i, fuel + 1 =>
    if (polled i).isTerminal then 1 else pollsIssued polled (i + 1) fuel + 1

/-- Whether the polling loop observes a terminal status before the
timeout clears the interval. -/
def sawTerminal (polled : Nat → JobStatus) : Nat → Nat → Bool
  | _, 0 => false
  | i, fuel + 1 =>
    if (polled i).isTerminal then true else sawTerminal polled (i + 1) fuel

/-- The outcome of one `handleSubmit` run: the final value of the
`isLoading` state and the number of status polls issued. -/
structure SubmitOutcome where
  isLoading : Bool
  pollCount : Nat
deriving DecidableEq

/-- Embedded from `ReviewInterface.handleSubmit`: submission sets
`isLoading` true; a thrown submission resets it in the catch block; an
initial status other than pending/processing resets it in the else
branch; otherwise the interval polls, resetting `isLoading` only when
a poll observes a terminal status — the 30-second timeout merely
clears the interval. -/
def handleSubmit (initial : Except Unit JobStatus) (polled : Nat → JobStatus) :
    SubmitOutcome :=
  match initial with
  | .error _ => ⟨false, 0⟩
  | .ok st =>
    if st = .pending ∨ st = .processing then
      ⟨!(sawTerminal polled 0 maxPolls), pollsIssued polled 0 maxPolls⟩
    else
      ⟨false, 0⟩

/-- Embedded from the submit button of `ReviewInterface`: its
`disabled` attribute is exactly the `isLoading` state. -/
def submitButtonDisabled (o : SubmitOutcome) : Bool := o.isLoading

/-! ## Review proxy route (`api/review/route.ts`) -/

/-- A JSON value, as far as the proxy route observes one. -/
inductive Json
  | null
  | str (s : String)
  | num (n : Int)
  | obj (fields : List (String × Json))

/-- The backend's reply to the forwarded request: its own HTTP status
code and the outcome of parsing its body as JSON (which can throw). -/
structure BackendResponse where
  httpStatus : Nat
  jsonBody : Except Unit Json

/-- The response the proxy route returns. -/
structure ProxyResponse where
  status : Nat
  body : Json

/-- The error body the route's catch block returns: an object whose
single field `error` holds the string `Failed to proxy request`. -/
def proxyErrorBody : Json :=
  .obj [("error", .str "Failed to proxy request")]

/-- Embedded from the `POST` handler of the review proxy route: parse
the request body, forward it to the backend, parse the backend's body;
any throw lands in the catch block, which responds 500 with the fixed
error body, and a successful round trip responds with the backend's
JSON body under the default status 200, whatever the backend's own
HTTP status was. -/
def proxyPOST (body : Except Unit Json)
    (forward : Json → Except Unit BackendResponse) : ProxyResponse :=
  match body with
  | .error _ => ⟨500, proxyErrorBody⟩
  | .ok b =>
    match forward b with
    | .error _ => ⟨500, proxyErrorBody⟩
    | .ok resp =>
      match resp.jsonBody with
      | .error _ => ⟨500, proxyErrorBody⟩
      | .ok data => ⟨200, data⟩

/-! ## Theorems: precedence merge (C1, C8) -/

/-- The merged value at any (section, key) is the
highest-precedence-present lookup. -/
theorem resolveConfig_value (d g l w : ConfigMapping) (s k : String) :
    (resolveConfig d g l w).value s k = specLookup d g l w s k := by
  simp only [resolveConfig, applySource, initFromDefaults, specLookup]

/-- C1: for every set of four parsed sources, the merged
`EffectiveConfig` gives each (section, key) the value from the
highest-precedence source in which that key is present, with
precedence wiki > local > global > defaults; a key present in a
higher-precedence source wins regardless of its value (the winning
value `v` is arbitrary, including an empty string or false), only
absence of the key lets a lower-precedence value through, and a key
absent from wiki, local and global retains its default value — all of
which is exactly the statement that the merged value equals
`specLookup`, the first-present lookup in precedence order. -/
theorem merged_value_is_highest_precedence (d g l w : ConfigMapping)
    (s k : String) :
    (resolveConfig d g l w).value s k = specLookup d g l w s k :=
  resolveConfig_value d g l w s k

/-- C8: the precedence merge is associative with respect to the fixed
source order — first merging defaults with global, then applying local
and wiki on top of the result, yields an `EffectiveConfig` that agrees
at every (section, key), in value and in provenance, with merging all
four sources in one pass in precedence order. -/
theorem merge_associative_per_precedence (d g l w : ConfigMapping)
    (s k : String) :
    (applyUpper (mergeBase d g) l w).value s k =
      (mergeOnePass d g l w).value s k ∧
    (applyUpper (mergeBase d g) l w).provenance s k =
      (mergeOnePass d g l w).provenance s k := by
  constructor
  · simp only [applyUpper, mergeBase, applySource, initFromDefaults,
      mergeOnePass, specLookup]
  · simp only [applyUpper, mergeBase, applySource, initFromDefaults,
      mergeOnePass]

/-! ## Theorems: wiki content sanitizer (C3) -/

/-- Content carrying no full-span wrapper is passed through
unchanged. -/
theorem sanitizeWiki_not_wrapped (s : List Char)
    (h1 : wrappedBy tripleBacktick s = false)
    (h2 : wrappedBy tripleQuote s = false) : sanitizeWiki s = s := by
  simp [sanitizeWiki, h1, h2]

/-- C3 (counterexample): the sanitizer is not idempotent on all wiki
content.  On twelve backticks — a full-span triple-backtick wrapper
around six backticks — one sanitization leaves six backticks, which
again form a full-span wrapper, so a second sanitization strips
further. -/
theorem sanitizer_not_idempotent :
    sanitizeWiki (sanitizeWiki (List.replicate 12 backtickChar)) ≠
      sanitizeWiki (List.replicate 12 backtickChar) := by decide

/-- C3 (amended): the sanitizer removes exactly one layer of
triple-backtick or triple-quote wrapping when such wrapping spans the
entire content, passes content without such full-span wrapping through
unchanged — so sanitizing already-unwrapped content is a no-op — and
applying it twice equals applying it once on every input whose single
unwrapping does not itself expose another full-span wrapper. -/
theorem sanitizer_unwraps_one_layer :
    (∀ s, wrappedBy tripleBacktick s = true → sanitizeWiki s = unwrapOnce s) ∧
    (∀ s, wrappedBy tripleBacktick s = false → wrappedBy tripleQuote s = true →
      sanitizeWiki s = unwrapOnce s) ∧
    (∀ s, wrappedBy tripleBacktick s = false → wrappedBy tripleQuote s = false →
      sanitizeWiki s = s) ∧
    (∀ s, wrappedBy tripleBacktick (sanitizeWiki s) = false →
      wrappedBy tripleQuote (sanitizeWiki s) = false →
      sanitizeWiki (sanitizeWiki s) = sanitizeWiki s) := by
  refine ⟨?_, ?_, ?_, ?_⟩
  · intro s h
    simp [sanitizeWiki, h]
  · intro s h1 h2
    simp [sanitizeWiki, h1, h2]
  · intro s h1 h2
    exact sanitizeWiki_not_wrapped s h1 h2
  · intro s h1 h2
    exact sanitizeWiki_not_wrapped _ h1 h2

/-- C3 (witness): the amended sanitizer claim evaluated on concrete
content — a backtick-wrapped payload, a quote-wrapped payload, and an
unwrapped payload on which sanitization is a no-op and idempotent. -/
theorem sanitizer_unwraps_one_layer_witness :
    sanitizeWiki [backtickChar, backtickChar, backtickChar, 'x',
        backtickChar, backtickChar, backtickChar] =
      unwrapOnce [backtickChar, backtickChar, backtickChar, 'x',
        backtickChar, backtickChar, backtickChar] ∧
    sanitizeWiki ['\"', '\"', '\"', 'y', '\"', '\"', '\"'] =
      unwrapOnce ['\"', '\"', '\"', 'y', '\"', '\"', '\"'] ∧
    sanitizeWiki ['p', 'q'] = ['p', 'q'] ∧
    sanitizeWiki (sanitizeWiki ['p', 'q']) = sanitizeWiki ['p', 'q'] :=
  ⟨sanitizer_unwraps_one_layer.1 _ (by decide),
   sanitizer_unwraps_one_layer.2.1 _ (by decide) (by decide),
   sanitizer_unwraps_one_layer.2.2.1 _ (by decide) (by decide),
   sanitizer_unwraps_one_layer.2.2.2 _ (by decide) (by decide)⟩

/-! ## Theorems: review-job polling (C2, C10) -/

/-- The interval can issue at most `fuel` polls before the timeout
clears it. -/
theorem pollsIssued_le (polled : Nat → JobStatus) :
    ∀ (fuel i : Nat), pollsIssued polled i fuel ≤ fuel := by
  intro fuel
  induction fuel with
  | zero => intro i; simp [pollsIssued]
  | succ n ih =>
    intro i
    by_cases h : (polled i).isTerminal = true
    · simp [pollsIssued, h]
    · simp only [pollsIssued, if_neg h]
      exact Nat.succ_le_succ (ih (i + 1))

/-- A poll that observes a terminal status is the last poll issued. -/
theorem pollsIssued_terminal_last (polled : Nat → JobStatus) :
    ∀ (fuel i j : Nat), j < pollsIssued polled i fuel →
      (polled (i + j)).isTerminal = true → j + 1 = pollsIssued polled i fuel := by
  intro fuel
  induction fuel with
  | zero => intro i j hj _; simp [pollsIssued] at hj
  | succ n ih =>
    intro i j hj hterm
    by_cases h : (polled i).isTerminal = true
    · simp only [pollsIssued, if_pos h] at hj ⊢
      omega
    · simp only [pollsIssued, if_neg h] at hj ⊢
      cases j with
      | zero => simp at hterm; exact absurd hterm h
      | succ j' =>
        have hj' : j' < pollsIssued polled (i + 1) n := by omega
        have hterm' : (polled ((i + 1) + j')).isTerminal = true := by
          have : i + (j' + 1) = (i + 1) + j' := by omega
          rwa [this] at hterm
        have := ih (i + 1) j' hj' hterm'
        omega

/-- The loop observes a terminal status before the timeout exactly
when some poll within the budget observes one. -/
theorem sawTerminal_iff (polled : Nat → JobStatus) :
    ∀ (fuel i : Nat), sawTerminal polled i fuel = true ↔
      ∃ j, j < fuel ∧ (polled (i + j)).isTerminal = true := by
  intro fuel
  induction fuel with
  | zero =>
    intro i
    simp [sawTerminal]
  | succ n ih =>
    intro i
    by_cases h : (polled i).isTerminal = true
    · simp only [sawTerminal, if_pos h]
      constructor
      · intro _
        exact ⟨0, Nat.succ_pos n, by simpa using h⟩
      · intro _; trivial
    · simp only [sawTerminal, if_neg h]
      rw [ih (i + 1)]
      constructor
      · rintro ⟨j, hj, hterm⟩
        refine ⟨j + 1, by omega, ?_⟩
        have : i + (j + 1) = (i + 1) + j := by omega
        rwa [this]
      · rintro ⟨j, hj, hterm⟩
        cases j with
        | zero => simp at hterm; exact absurd hterm h
        | succ j' =>
          refine ⟨j', by omega, ?_⟩
          have : (i + 1) + j' = i + (j' + 1) := by omega
          rwa [this]

/-- If no poll observes a terminal status, the interval runs until the
timeout clears it, issuing its full budget of polls. -/
theorem pollsIssued_no_terminal (polled : Nat → JobStatus) :
    ∀ (fuel i : Nat), sawTerminal polled i fuel = false →
      pollsIssued polled i fuel = fuel := by
  intro fuel
  induction fuel with
  | zero => intro i _; rfl
  | succ n ih =>
    intro i hsaw
    by_cases h : (polled i).isTerminal = true
    · simp [sawTerminal, h] at hsaw
    · simp only [sawTerminal, if_neg h] at hsaw
      simp only [pollsIssued, if_neg h]
      rw [ih (i + 1) hsaw]

/-- C2: every review-job status is one of exactly pending, processing,
completed, failed; completed and failed are the terminal statuses; and
the polling loop never issues another status poll after it has
observed a terminal status (a terminal observation at poll `j` makes
`j` the last poll) or after the overall timeout has elapsed (the polls
issued never exceed the timeout's budget `maxPolls`). -/
theorem job_status_and_polling_stops (polled : Nat → JobStatus) (j : Nat)
    (hj : j < pollsIssued polled 0 maxPolls)
    (hterm : (polled j).isTerminal = true) :
    (∀ s : JobStatus,
      s = .pending ∨ s = .processing ∨ s = .completed ∨ s = .failed) ∧
    (JobStatus.completed.isTerminal = true ∧
      JobStatus.failed.isTerminal = true ∧
      JobStatus.pending.isTerminal = false ∧
      JobStatus.processing.isTerminal = false) ∧
    pollsIssued polled 0 maxPolls ≤ maxPolls ∧
    j + 1 = pollsIssued polled 0 maxPolls := by
  refine ⟨?_, by simp [JobStatus.isTerminal], pollsIssued_le polled maxPolls 0, ?_⟩
  · intro s
    cases s
    · exact Or.inl rfl
    · exact Or.inr (Or.inl rfl)
    · exact Or.inr (Or.inr (Or.inl rfl))
    · exact Or.inr (Or.inr (Or.inr rfl))
  · exact pollsIssued_terminal_last polled maxPolls 0 j hj (by simpa using hterm)

/-- C2 (witness): with a job that turns completed on the third poll,
the loop issues exactly three polls out of the fifteen the timeout
allows. -/
theorem job_status_and_polling_stops_witness :
    2 < pollsIssued (fun i => if i = 2 then JobStatus.completed else .processing) 0 maxPolls ∧
    2 + 1 = pollsIssued (fun i => if i = 2 then JobStatus.completed else .processing) 0 maxPolls :=
  ⟨by decide,
   (job_status_and_polling_stops
      (fun i => if i = 2 then JobStatus.completed else .processing) 2
      (by decide) (by decide)).2.2.2⟩

/-- An initial status outside pending/processing is terminal. -/
theorem not_pending_processing_terminal (st : JobStatus)
    (h : ¬(st = .pending ∨ st = .processing)) : st.isTerminal = true := by
  cases st
  · exact absurd (Or.inl rfl) h
  · exact absurd (Or.inr rfl) h
  · rfl
  · rfl

/-- C10: for every review submission whose initial status is pending
or processing and for which no polled status ever becomes terminal
within the timeout's budget, the interval is cleared by the timeout
after issuing its full budget of polls but the `isLoading` flag is
never reset to false, so the submit button (whose disabled attribute
is `isLoading`) remains disabled; and `isLoading` ends up false
exactly when the submission throws, when the initial status is already
terminal, or when some poll within the budget observes a terminal
status. -/
theorem submit_stuck_loading (st : JobStatus) (polled : Nat → JobStatus)
    (hst : st = .pending ∨ st = .processing)
    (hnt : ∀ j, j < maxPolls → (polled j).isTerminal = false) :
    ((handleSubmit (.ok st) polled).isLoading = true ∧
     (handleSubmit (.ok st) polled).pollCount = maxPolls ∧
     submitButtonDisabled (handleSubmit (.ok st) polled) = true) ∧
    (∀ (initial : Except Unit JobStatus) (polled2 : Nat → JobStatus),
      (handleSubmit initial polled2).isLoading = false ↔
        (∃ e, initial = .error e) ∨
        (∃ st2, initial = .ok st2 ∧ st2.isTerminal = true) ∨
        (∃ st2, initial = .ok st2 ∧ (st2 = .pending ∨ st2 = .processing) ∧
          ∃ j, j < maxPolls ∧ (polled2 j).isTerminal = true)) := by
  constructor
  · have hsaw : sawTerminal polled 0 maxPolls = false := by
      cases hs : sawTerminal polled 0 maxPolls
      · rfl
      · obtain ⟨j, hj, hterm⟩ := (sawTerminal_iff polled maxPolls 0).mp hs
        rw [Nat.zero_add] at hterm
        rw [hnt j hj] at hterm
        exact absurd hterm (by simp)
    refine ⟨?_, ?_, ?_⟩ <;>
      simp [handleSubmit, submitButtonDisabled, if_pos hst, hsaw,
        pollsIssued_no_terminal polled maxPolls 0 hsaw]
  · intro initial polled2
    cases initial with
    | error e =>
      constructor
      · intro _
        exact Or.inl ⟨e, rfl⟩
      · intro _
        rfl
    | ok st2 =>
      by_cases hp : st2 = .pending ∨ st2 = .processing
      · simp only [handleSubmit, if_pos hp]
        constructor
        · intro hload
          have hsaw : sawTerminal polled2 0 maxPolls = true := by
            cases hs : sawTerminal polled2 0 maxPolls
            · rw [hs] at hload; simp at hload
            · rfl
          obtain ⟨j, hj, hterm⟩ := (sawTerminal_iff polled2 maxPolls 0).mp hsaw
          rw [Nat.zero_add] at hterm
          exact Or.inr (Or.inr ⟨st2, rfl, hp, j, hj, hterm⟩)
        · intro h
          rcases h with ⟨e, he⟩ | ⟨st3, hst3, hterm⟩ | ⟨st3, hst3, _, j, hj, hterm⟩
          · exact absurd he (by simp)
          · cases hst3
            rcases hp with h' | h' <;> rw [h'] at hterm <;> simp [JobStatus.isTerminal] at hterm
          · cases hst3
            have hsaw : sawTerminal polled2 0 maxPolls = true :=
              (sawTerminal_iff polled2 maxPolls 0).mpr ⟨j, hj, by simpa using hterm⟩
            simp [hsaw]
      · constructor
        · intro _
          exact Or.inr (Or.inl ⟨st2, rfl, not_pending_processing_terminal st2 hp⟩)
        · intro _
          simp [handleSubmit, if_neg hp]

/-- C10 (witness): a submission whose initial status is pending and
whose every poll still reports processing ends with `isLoading` true,
the full budget of polls issued, and the submit button disabled. -/
theorem submit_stuck_loading_witness :
    (handleSubmit (.ok .pending) (fun _ => JobStatus.processing)).isLoading = true ∧
    (handleSubmit (.ok .pending) (fun _ => JobStatus.processing)).pollCount = maxPolls ∧
    submitButtonDisabled (handleSubmit (.ok .pending) (fun _ => JobStatus.processing)) = true :=
  (submit_stuck_loading .pending (fun _ => JobStatus.processing) (Or.inl rfl)
    (fun _ _ => rfl)).1

/-! ## Theorems: review proxy route (C9) -/

/-- C9: the review proxy route's POST handler is total over failures —
a throw while parsing the request body, forwarding to the backend, or
parsing the backend response yields status 500 with the fixed error
body, and a successful round trip yields the backend's JSON body with
status 200, whatever HTTP status the backend itself returned. -/
theorem proxy_post_total (b : Json)
    (forward : Json → Except Unit BackendResponse)
    (resp : BackendResponse) (data : Json) :
    (∀ (e : Unit) (fw : Json → Except Unit BackendResponse),
      proxyPOST (.error e) fw = ⟨500, proxyErrorBody⟩) ∧
    (forward b = .error () →
      proxyPOST (.ok b) forward = ⟨500, proxyErrorBody⟩) ∧
    (forward b = .ok resp → resp.jsonBody = .error () →
      proxyPOST (.ok b) forward = ⟨500, proxyErrorBody⟩) ∧
    (forward b = .ok resp → resp.jsonBody = .ok data →
      proxyPOST (.ok b) forward = ⟨200, data⟩) := by
  refine ⟨fun e fw => rfl, ?_, ?_, ?_⟩
  · intro h
    simp [proxyPOST, h]
  · intro h1 h2
    simp [proxyPOST, h1, h2]
  · intro h1 h2
    simp [proxyPOST, h1, h2]

/-- C9 (witness): a backend that answers with its own HTTP status 404
and a parseable JSON body is still proxied as a 200 response carrying
that body, and each failure point yields the 500 error response. -/
theorem proxy_post_total_witness :
    proxyPOST (.error ()) (fun _ => .error ()) = ⟨500, proxyErrorBody⟩ ∧
    proxyPOST (.ok .null) (fun _ => .error ()) = ⟨500, proxyErrorBody⟩ ∧
    proxyPOST (.ok .null) (fun _ => .ok ⟨502, .error ()⟩) = ⟨500, proxyErrorBody⟩ ∧
    proxyPOST (.ok .null) (fun _ => .ok ⟨404, .ok (Json.str "payload")⟩) =
      ⟨200, Json.str "payload"⟩ :=
  ⟨(proxy_post_total .null (fun _ => .error ()) ⟨0, .error ()⟩ .null).1 ()
      (fun _ => .error ()),
   (proxy_post_total .null (fun _ => .error ()) ⟨0, .error ()⟩ .null).2.1 rfl,
   (proxy_post_total .null (fun _ => .ok ⟨502, .error ()⟩) ⟨502, .error ()⟩ .null).2.2.1
      rfl rfl,
   (proxy_post_total .null (fun _ => .ok ⟨404, .ok (Json.str "payload")⟩)
      ⟨404, .ok (Json.str "payload")⟩ (Json.str "payload")).2.2.2 rfl rfl⟩

/-! ## Theorems: fail-closed / fail-open resolution (C5) -/

/-- A malformed source contributes nothing to the merge. -/
theorem toMapping_malformed (p : ParseOutcome) (h : p.isMalformed = true) :
    p.toMapping = fun _ _ => none := by
  cases p with
  | malformed => rfl
  | absent => simp [ParseOutcome.isMalformed] at h
  | parsed m => simp [ParseOutcome.isMalformed] at h

/-- C5: for every resolution in which a present source — global,
local or wiki — fails to parse while the other two do not, fail-closed
resolution fails with a `MalformedSource` error identifying that
source (its keys do not silently fall back), while fail-open
resolution treats the malformed source as absent, so every
(section, key) resolves from the remaining sources in precedence order
with no contribution from the malformed one, and a warning naming the
malformed source is still attached to the result. -/
theorem malformed_source_policy (d : ConfigMapping) (g l w : ParseOutcome) :
    (g.isMalformed = true → l.isMalformed = false → w.isMalformed = false →
      resolveWithPolicy .failClosed d g l w =
        .error (.malformedSource .globalSrc) ∧
      ∃ r, resolveWithPolicy .failOpen d g l w = .ok r ∧
        (∀ s k, r.config.value s k =
          specLookup d (fun _ _ => none) l.toMapping w.toMapping s k) ∧
        ResolutionWarning.malformedSourceWarning .globalSrc ∈ r.warnings) ∧
    (l.isMalformed = true → g.isMalformed = false → w.isMalformed = false →
      resolveWithPolicy .failClosed d g l w =
        .error (.malformedSource .localSrc) ∧
      ∃ r, resolveWithPolicy .failOpen d g l w = .ok r ∧
        (∀ s k, r.config.value s k =
          specLookup d g.toMapping (fun _ _ => none) w.toMapping s k) ∧
        ResolutionWarning.malformedSourceWarning .localSrc ∈ r.warnings) ∧
    (w.isMalformed = true → g.isMalformed = false → l.isMalformed = false →
      resolveWithPolicy .failClosed d g l w =
        .error (.malformedSource .wikiSrc) ∧
      ∃ r, resolveWithPolicy .failOpen d g l w = .ok r ∧
        (∀ s k, r.config.value s k =
          specLookup d g.toMapping l.toMapping (fun _ _ => none) s k) ∧
        ResolutionWarning.malformedSourceWarning .wikiSrc ∈ r.warnings) := by
  refine ⟨?_, ?_, ?_⟩
  · intro hg _hl _hw
    constructor
    · simp [resolveWithPolicy, firstMalformed, hg]
    · refine ⟨_, rfl, ?_, ?_⟩
      · intro s k
        show (resolveConfig d g.toMapping l.toMapping w.toMapping).value s k = _
        rw [toMapping_malformed g hg]
        exact resolveConfig_value d (fun _ _ => none) l.toMapping w.toMapping s k
      · simp [malformedWarnings, hg]
  · intro hl hg _hw
    constructor
    · simp [resolveWithPolicy, firstMalformed, hl, hg]
    · refine ⟨_, rfl, ?_, ?_⟩
      · intro s k
        show (resolveConfig d g.toMapping l.toMapping w.toMapping).value s k = _
        rw [toMapping_malformed l hl]
        exact resolveConfig_value d g.toMapping (fun _ _ => none) w.toMapping s k
      · simp [malformedWarnings, hl]
  · intro hw hg hl
    constructor
    · simp [resolveWithPolicy, firstMalformed, hw, hg, hl]
    · refine ⟨_, rfl, ?_, ?_⟩
      · intro s k
        show (resolveConfig d g.toMapping l.toMapping w.toMapping).value s k = _
        rw [toMapping_malformed w hw]
        exact resolveConfig_value d g.toMapping l.toMapping (fun _ _ => none) s k
      · simp [malformedWarnings, hw]

/-- C5 (witness): concrete resolutions in which the malformed source
is the global, the local, and the wiki one in turn: fail-closed names
the malformed source each time, and fail-open for the malformed local
source resolves every key from wiki, then global, then defaults, with
a warning naming the local source. -/
theorem malformed_source_policy_witness :
    resolveWithPolicy .failClosed (fun _ _ => some (ConfigValue.str "dflt"))
        .malformed (.parsed (fun _ _ => some (ConfigValue.str "loc"))) .absent =
      .error (.malformedSource .globalSrc) ∧
    resolveWithPolicy .failClosed (fun _ _ => some (ConfigValue.str "dflt"))
        (.parsed (fun _ _ => some (ConfigValue.str "glob"))) .malformed .absent =
      .error (.malformedSource .localSrc) ∧
    resolveWithPolicy .failClosed (fun _ _ => some (ConfigValue.str "dflt"))
        (.parsed (fun _ _ => some (ConfigValue.str "glob"))) .absent .malformed =
      .error (.malformedSource .wikiSrc) ∧
    ∃ r, resolveWithPolicy .failOpen (fun _ _ => some (ConfigValue.str "dflt"))
        (.parsed (fun _ _ => some (ConfigValue.str "glob"))) .malformed .absent =
      .ok r ∧
      (∀ s k, r.config.value s k =
        specLookup (fun _ _ => some (ConfigValue.str "dflt"))
          (ParseOutcome.parsed (fun _ _ => some (ConfigValue.str "glob"))).toMapping
          (fun _ _ => none) (ParseOutcome.absent).toMapping s k) ∧
      ResolutionWarning.malformedSourceWarning .localSrc ∈ r.warnings :=
  ⟨((malformed_source_policy (fun _ _ => some (ConfigValue.str "dflt"))
      .malformed (.parsed (fun _ _ => some (ConfigValue.str "loc"))) .absent).1
      rfl rfl rfl).1,
   ((malformed_source_policy (fun _ _ => some (ConfigValue.str "dflt"))
      (.parsed (fun _ _ => some (ConfigValue.str "glob"))) .malformed .absent).2.1
      rfl rfl rfl).1,
   ((malformed_source_policy (fun _ _ => some (ConfigValue.str "dflt"))
      (.parsed (fun _ _ => some (ConfigValue.str "glob"))) .absent .malformed).2.2
      rfl rfl rfl).1,
   ((malformed_source_policy (fun _ _ => some (ConfigValue.str "dflt"))
      (.parsed (fun _ _ => some (ConfigValue.str "glob"))) .malformed .absent).2.1
      rfl rfl rfl).2⟩

/-! ## Theorems: context discovery (C6) -/

/-- The lexicographic order on character lists is total. -/
theorem lexLe_total : ∀ (as bs : List Char),
    lexLe as bs = true ∨ lexLe bs as = true := by
  intro as
  induction as with
  | nil => intro bs; exact Or.inl rfl
  | cons a as ih =>
    intro bs
    cases bs with
    | nil => exact Or.inr rfl
    | cons b bs =>
      by_cases hab : a = b
      · subst hab
        simp only [lexLe, if_pos rfl]
        exact ih bs
      · have hba : ¬b = a := fun h => hab h.symm
        simp only [lexLe, if_neg hab, if_neg hba]
        rcases lt_trichotomy a b with h | h | h
        · exact Or.inl (by simpa using h)
        · exact absurd h hab
        · exact Or.inr (by simpa using h)

/-- The lexicographic order on character lists is transitive. -/
theorem lexLe_trans : ∀ (as bs cs : List Char),
    lexLe as bs = true → lexLe bs cs = true → lexLe as cs = true := by
  intro as
  induction as with
  | nil => intro bs cs _ _; rfl
  | cons a as ih =>
    intro bs cs h1 h2
    cases bs with
    | nil => simp [lexLe] at h1
    | cons b bs =>
      cases cs with
      | nil => simp [lexLe] at h2
      | cons c cs =>
        by_cases hab : a = b <;> by_cases hbc : b = c
        · subst hab; subst hbc
          simp only [lexLe, if_pos rfl] at h1 h2 ⊢
          exact ih bs cs h1 h2
        · subst hab
          simp only [lexLe, if_pos rfl, if_neg hbc] at h2 ⊢
          exact h2
        · subst hbc
          simp only [lexLe, if_pos rfl, if_neg hab] at h1 ⊢
          exact h1
        · simp only [lexLe, if_neg hab, if_neg hbc] at h1 h2
          have h1' : a < b := by simpa using h1
          have h2' : b < c := by simpa using h2
          have hac : a < c := lt_trans h1' h2'
          simp only [lexLe, if_neg (ne_of_lt hac)]
          simpa using hac

/-- The lexicographic order on character lists is antisymmetric. -/
theorem lexLe_antisymm : ∀ (as bs : List Char),
    lexLe as bs = true → lexLe bs as = true → as = bs := by
  intro as
  induction as with
  | nil =>
    intro bs _ h2
    cases bs with
    | nil => rfl
    | cons b bs => simp [lexLe] at h2
  | cons a as ih =>
    intro bs h1 h2
    cases bs with
    | nil => simp [lexLe] at h1
    | cons b bs =>
      by_cases hab : a = b
      · subst hab
        simp only [lexLe, if_pos rfl] at h1 h2
        rw [ih bs h1 h2]
      · have hba : ¬b = a := fun h => hab h.symm
        simp only [lexLe, if_neg hab] at h1
        simp only [lexLe, if_neg hba] at h2
        have h1' : a < b := by simpa using h1
        have h2' : b < a := by simpa using h2
        exact absurd h2' (lt_asymm h1')

instance : IsTotal String pathLe where
  total a b := lexLe_total a.toList b.toList

instance : IsTrans String pathLe where
  trans a b c := lexLe_trans a.toList b.toList c.toList

instance : IsAntisymm String pathLe where
  antisymm a b h1 h2 := by
    have hdata := lexLe_antisymm a.toList b.toList h1 h2
    cases a
    cases b
    exact congrArg String.mk hdata

/-- Discovery never removes or replaces an explicitly declared
`technology_stack` entry: the result extends the declared list by
entries not already declared. -/
theorem applyDiscovery_appends (hintOf : String → List String)
    (meta : RepositoryMetadata) (files : List String) :
    ∃ extra, (applyDiscovery hintOf meta files).technology_stack =
      meta.technology_stack ++ extra ∧
      ∀ x ∈ extra, x ∉ meta.technology_stack := by
  by_cases hauto : meta.auto_discover_context = true
  · refine ⟨(discoverHints hintOf files meta.max_context_files).filter
      (fun h => decide (h ∉ meta.technology_stack)), ?_, ?_⟩
    · simp [applyDiscovery, hauto]
    · intro x hx
      exact of_decide_eq_true (List.mem_filter.mp hx).2
  · refine ⟨[], ?_, by simp⟩
    simp [applyDiscovery, hauto]

/-- Discovery never changes the declared enum fields. -/
theorem applyDiscovery_fixed_fields (hintOf : String → List String)
    (meta : RepositoryMetadata) (files : List String) :
    (applyDiscovery hintOf meta files).repository_type = meta.repository_type ∧
    (applyDiscovery hintOf meta files).maturity_level = meta.maturity_level ∧
    (applyDiscovery hintOf meta files).complexity_level = meta.complexity_level := by
  by_cases hauto : meta.auto_discover_context = true <;>
    simp [applyDiscovery, hauto]

/-- C6: discovery inspects at most `max_context_files` files (whose
compiled-in default is 50), iterates them in deterministic
lexicographic path order — so two runs over the same set of repository
files, however enumerated, inspect the same files and yield identical
hints — may only append new entries to `technology_stack`, never
removing or replacing a declared entry, and never changes the declared
`repository_type`, `maturity_level` or `complexity_level`. -/
theorem discovery_bounded_deterministic_additive
    (files₁ files₂ files : List String) (m : Nat)
    (hintOf : String → List String) (meta : RepositoryMetadata)
    (hperm : files₁.Perm files₂) :
    (inspectedFiles files m).length ≤ m ∧
    List.Sorted pathLe (inspectedFiles files m) ∧
    inspectedFiles files₁ m = inspectedFiles files₂ m ∧
    defaultMetadata.max_context_files = 50 ∧
    (∃ extra, (applyDiscovery hintOf meta files).technology_stack =
      meta.technology_stack ++ extra ∧
      ∀ x ∈ extra, x ∉ meta.technology_stack) ∧
    (applyDiscovery hintOf meta files).repository_type = meta.repository_type ∧
    (applyDiscovery hintOf meta files).maturity_level = meta.maturity_level ∧
    (applyDiscovery hintOf meta files).complexity_level = meta.complexity_level := by
  refine ⟨List.length_take_le m _,
    (List.sorted_insertionSort pathLe files).sublist (List.take_sublist m _),
    ?_, rfl, applyDiscovery_appends hintOf meta files,
    applyDiscovery_fixed_fields hintOf meta files⟩
  have hsorts : List.insertionSort pathLe files₁ = List.insertionSort pathLe files₂ :=
    List.eq_of_perm_of_sorted
      ((List.perm_insertionSort pathLe files₁).trans
        (hperm.trans (List.perm_insertionSort pathLe files₂).symm))
      (List.sorted_insertionSort pathLe files₁)
      (List.sorted_insertionSort pathLe files₂)
  unfold inspectedFiles
  rw [hsorts]

/-- C6 (witness): two enumeration orders of the same two files are
inspected identically under a budget of one file. -/
theorem discovery_bounded_deterministic_additive_witness :
    inspectedFiles ["b.md", "a.md"] 1 = inspectedFiles ["a.md", "b.md"] 1 :=
  (discovery_bounded_deterministic_additive ["b.md", "a.md"] ["a.md", "b.md"]
    [] 1 (fun _ => []) defaultMetadata (List.Perm.swap "a.md" "b.md" [])).2.2.1

/-! ## Theorems: context block builder (C7) -/

/-- The recursive enhancement renderer produces one line per
enhancement, in original order. -/
theorem renderEnhancementLines_eq_map (es : List String) :
    renderEnhancementLines es = es.map (fun e => "- " ++ e) := by
  induction es with
  | nil => rfl
  | cons e es ih => simp [renderEnhancementLines, ih]

/-- C7: context-block generation is a deterministic pure function of
its inputs — equal metadata and equal fetched excerpt contents render
byte-identical text (and, being a pure function of an immutable
record, it cannot mutate the configuration it reads) — and the
rendered block lists the fields in the fixed order the specification
states: repository type, technology stack comma-joined in declared
order, maturity level, complexity level, custom context, then the
context enhancements one per line in original order, then the optional
best-practices and guidelines excerpts. -/
theorem context_block_deterministic_fixed_order
    (m₁ m₂ : RepositoryMetadata) (bp₁ bp₂ gl₁ gl₂ : Option String)
    (hm : m₁ = m₂) (hbp : bp₁ = bp₂) (hgl : gl₁ = gl₂) :
    buildContextBlock m₁ bp₁ gl₁ = buildContextBlock m₂ bp₂ gl₂ ∧
    (∀ (meta : RepositoryMetadata) (bp gl : Option String),
      buildContextBlock meta bp gl =
        String.intercalate "\n" (specOrderedLines meta bp gl)) := by
  constructor
  · rw [hm, hbp, hgl]
  · intro meta bp gl
    unfold buildContextBlock specOrderedLines contextHeaderLines
    rw [renderEnhancementLines_eq_map]
    simp

/-- C7 (witness): the builder evaluated twice on the compiled-in
default metadata with no excerpts renders identical text. -/
theorem context_block_deterministic_fixed_order_witness :
    buildContextBlock defaultMetadata none none =
      buildContextBlock defaultMetadata none none :=
  (context_block_deterministic_fixed_order defaultMetadata defaultMetadata
    none none none none rfl rfl rfl).1

/-! ## Theorems: metadata validation (C4) -/

/-- An out-of-vocabulary string value for an enum field validates to
the default plus exactly the one warning naming section, key and
value. -/
theorem validateEnumField_invalid (m : SectionTable) (key : String)
    (vocab : List String) (dflt : String) (v : String)
    (hlk : lookupKey m key = some (.str v))
    (hv : vocab.contains v = false) :
    validateEnumField m key vocab dflt =
      (dflt, [⟨"repository_metadata", key, .str v⟩]) := by
  unfold validateEnumField
  rw [hlk]
  have hv' : v ∉ vocab := by simpa using hv
  simp [hv']

/-- Every warning an enum field produces names that field's key. -/
theorem validateEnumField_key (m : SectionTable) (key : String)
    (vocab : List String) (dflt : String) :
    ∀ w' ∈ (validateEnumField m key vocab dflt).2, w'.key = key := by
  intro w' hw
  unfold validateEnumField at hw
  rcases hlk : lookupKey m key with _ | v
  · rw [hlk] at hw
    simp at hw
  · rw [hlk] at hw
    cases v with
    | str s =>
      by_cases hvoc : s ∈ vocab
      · simp [hvoc] at hw
      · simp [hvoc] at hw
        rw [hw]
    | boolVal b => simp at hw; rw [hw]
    | intVal n => simp at hw; rw [hw]
    | strList xs => simp at hw; rw [hw]

/-- Every warning a boolean field produces names that field's key. -/
theorem validateBoolField_key (m : SectionTable) (key : String) (dflt : Bool) :
    ∀ w' ∈ (validateBoolField m key dflt).2, w'.key = key := by
  intro w' hw
  unfold validateBoolField at hw
  rcases hlk : lookupKey m key with _ | v
  · rw [hlk] at hw; simp at hw
  · rw [hlk] at hw
    cases v with
    | str s => simp at hw; rw [hw]
    | boolVal b => simp at hw
    | intVal n => simp at hw; rw [hw]
    | strList xs => simp at hw; rw [hw]

/-- Every warning a string field produces names that field's key. -/
theorem validateStringField_key (m : SectionTable) (key : String) (dflt : String) :
    ∀ w' ∈ (validateStringField m key dflt).2, w'.key = key := by
  intro w' hw
  unfold validateStringField at hw
  rcases hlk : lookupKey m key with _ | v
  · rw [hlk] at hw; simp at hw
  · rw [hlk] at hw
    cases v with
    | str s => simp at hw
    | boolVal b => simp at hw; rw [hw]
    | intVal n => simp at hw; rw [hw]
    | strList xs => simp at hw; rw [hw]

/-- Every warning a path field produces names that field's key. -/
theorem validatePathField_key (m : SectionTable) (key : String) :
    ∀ w' ∈ (validatePathField m key).2, w'.key = key := by
  intro w' hw
  unfold validatePathField at hw
  rcases hlk : lookupKey m key with _ | v
  · rw [hlk] at hw; simp at hw
  · rw [hlk] at hw
    cases v with
    | str s => simp at hw
    | boolVal b => simp at hw; rw [hw]
    | intVal n => simp at hw; rw [hw]
    | strList xs => simp at hw; rw [hw]

/-- Every warning an integer field produces names that field's key. -/
theorem validateNatField_key (m : SectionTable) (key : String) (dflt : Nat) :
    ∀ w' ∈ (validateNatField m key dflt).2, w'.key = key := by
  intro w' hw
  unfold validateNatField at hw
  rcases hlk : lookupKey m key with _ | v
  · rw [hlk] at hw; simp at hw
  · rw [hlk] at hw
    cases v with
    | str s => simp at hw; rw [hw]
    | boolVal b => simp at hw; rw [hw]
    | intVal n =>
      by_cases hn : (0 : Int) ≤ n
      · simp [hn] at hw
      · simp [hn] at hw
        rw [hw]
    | strList xs => simp at hw; rw [hw]

/-- Every warning a string-list field produces names that field's key. -/
theorem validateStrListField_key (m : SectionTable) (key : String) :
    ∀ w' ∈ (validateStrListField m key).2, w'.key = key := by
  intro w' hw
  unfold validateStrListField at hw
  rcases hlk : lookupKey m key with _ | v
  · rw [hlk] at hw; simp at hw
  · rw [hlk] at hw
    cases v with
    | str s => simp at hw; rw [hw]
    | boolVal b => simp at hw; rw [hw]
    | intVal n => simp at hw; rw [hw]
    | strList xs => simp at hw

/-- Every warning the technology-stack parser produces names its key. -/
theorem parseTechStack_key (m : SectionTable) :
    ∀ w' ∈ (parseTechStack m).2, w'.key = "technology_stack" := by
  intro w' hw
  unfold parseTechStack at hw
  rcases hlk : lookupKey m "technology_stack" with _ | v
  · rw [hlk] at hw; simp at hw
  · rw [hlk] at hw
    cases v with
    | str s => simp at hw
    | boolVal b => simp at hw; rw [hw]
    | intVal n => simp at hw; rw [hw]
    | strList xs => simp at hw

/-- Warnings all naming one key vanish under a filter for another. -/
theorem filter_key_ne (ws : List ValidationWarning) (key q : String)
    (hall : ∀ w' ∈ ws, w'.key = key) (hne : (key == q) = false) :
    ws.filter (fun w' => w'.key == q) = [] := by
  induction ws with
  | nil => rfl
  | cons w ws ih =>
    have hw := hall w (List.mem_cons_self w ws)
    have hwq : (w.key == q) = false := by rw [hw]; exact hne
    simp only [List.filter_cons, hwq, Bool.false_eq_true, if_false]
    exact ih (fun x hx => hall x (List.mem_cons_of_mem w hx))

/-- Removing one key from a section table leaves the lookup of every
other key unchanged. -/
theorem lookupKey_removeKey (m : SectionTable) (k₀ k : String)
    (h : (k == k₀) = false) :
    lookupKey (removeKey m k₀) k = lookupKey m k := by
  induction m with
  | nil => rfl
  | cons p m ih =>
    by_cases hp : (p.1 == k₀) = true
    · have hpk : (p.1 == k) = false := by
        have h1 : p.1 = k₀ := by simpa using hp
        subst h1
        cases hkk : p.1 == k
        · rfl
        · have : p.1 = k := by simpa using hkk
          subst this
          simp at h
      simp only [removeKey, List.filter_cons, hp, Bool.not_true,
        Bool.false_eq_true, if_false]
      rw [show removeKey m k₀ = m.filter (fun q => !(q.1 == k₀)) from rfl] at ih
      rw [ih]
      simp only [lookupKey, List.find?, hpk]
    · simp only [removeKey, List.filter_cons, hp, Bool.not_false, if_true]
      simp only [lookupKey, List.find?]
      cases hpk : p.1 == k
      · rw [show removeKey m k₀ = m.filter (fun q => !(q.1 == k₀)) from rfl] at ih
        exact ih
      · rfl

/-- Removing a key from a section table empties its own lookup. -/
theorem lookupKey_removeKey_self (m : SectionTable) (k : String) :
    lookupKey (removeKey m k) k = none := by
  induction m with
  | nil => rfl
  | cons p m ih =>
    by_cases hp : (p.1 == k) = true
    · simp only [removeKey, List.filter_cons, hp, Bool.not_true,
        Bool.false_eq_true, if_false]
      rw [show removeKey m k = m.filter (fun q => !(q.1 == k)) from rfl] at ih
      exact ih
    · simp only [removeKey, List.filter_cons, hp, Bool.not_false, if_true]
      simp only [lookupKey, List.find?, hp]
      rw [show removeKey m k = m.filter (fun q => !(q.1 == k)) from rfl] at ih
      exact ih

/-- An absent enum key validates to the default with no warning. -/
theorem validateEnumField_absent (m : SectionTable) (key : String)
    (vocab : List String) (dflt : String)
    (h : lookupKey m key = none) :
    validateEnumField m key vocab dflt = (dflt, []) := by
  unfold validateEnumField
  rw [h]

/-- Removing a different key leaves an enum field's validation
unchanged. -/
theorem validateEnumField_removeKey (m : SectionTable) (k₀ key : String)
    (vocab : List String) (dflt : String) (h : (key == k₀) = false) :
    validateEnumField (removeKey m k₀) key vocab dflt =
      validateEnumField m key vocab dflt := by
  unfold validateEnumField
  rw [lookupKey_removeKey m k₀ key h]

/-- Removing a different key leaves a boolean field's validation
unchanged. -/
theorem validateBoolField_removeKey (m : SectionTable) (k₀ key : String)
    (dflt : Bool) (h : (key == k₀) = false) :
    validateBoolField (removeKey m k₀) key dflt =
      validateBoolField m key dflt := by
  unfold validateBoolField
  rw [lookupKey_removeKey m k₀ key h]

/-- Removing a different key leaves a string field's validation
unchanged. -/
theorem validateStringField_removeKey (m : SectionTable) (k₀ key : String)
    (dflt : String) (h : (key == k₀) = false) :
    validateStringField (removeKey m k₀) key dflt =
      validateStringField m key dflt := by
  unfold validateStringField
  rw [lookupKey_removeKey m k₀ key h]

/-- Removing a different key leaves a path field's validation
unchanged. -/
theorem validatePathField_removeKey (m : SectionTable) (k₀ key : String)
    (h : (key == k₀) = false) :
    validatePathField (removeKey m k₀) key = validatePathField m key := by
  unfold validatePathField
  rw [lookupKey_removeKey m k₀ key h]

/-- Removing a different key leaves an integer field's validation
unchanged. -/
theorem validateNatField_removeKey (m : SectionTable) (k₀ key : String)
    (dflt : Nat) (h : (key == k₀) = false) :
    validateNatField (removeKey m k₀) key dflt =
      validateNatField m key dflt := by
  unfold validateNatField
  rw [lookupKey_removeKey m k₀ key h]

/-- Removing a different key leaves a string-list field's validation
unchanged. -/
theorem validateStrListField_removeKey (m : SectionTable) (k₀ key : String)
    (h : (key == k₀) = false) :
    validateStrListField (removeKey m k₀) key = validateStrListField m key := by
  unfold validateStrListField
  rw [lookupKey_removeKey m k₀ key h]

/-- Removing a different key leaves the technology-stack parse
unchanged. -/
theorem parseTechStack_removeKey (m : SectionTable) (k₀ : String)
    (h : ("technology_stack" == k₀) = false) :
    parseTechStack (removeKey m k₀) = parseTechStack m := by
  unfold parseTechStack
  rw [lookupKey_removeKey m k₀ "technology_stack" h]

/-- An out-of-vocabulary `repository_type` yields the same validated
metadata record, in every field, as if the offending key were
absent. -/
theorem validateMetadata_invalid_rt (m : SectionTable) (v : String)
    (hlk : lookupKey m "repository_type" = some (.str v))
    (hv : repositoryTypes.contains v = false) :
    (validateMetadata m).metadata =
      (validateMetadata (removeKey m "repository_type")).metadata := by
  simp only [validateMetadata]
  rw [validateBoolField_removeKey m "repository_type" "enabled"
        defaultMetadata.enabled (by decide),
      parseTechStack_removeKey m "repository_type" (by decide),
      validateEnumField_removeKey m "repository_type" "maturity_level"
        maturityLevels defaultMetadata.maturity_level (by decide),
      validateEnumField_removeKey m "repository_type" "complexity_level"
        complexityLevels defaultMetadata.complexity_level (by decide),
      validateStringField_removeKey m "repository_type" "custom_context"
        defaultMetadata.custom_context (by decide),
      validatePathField_removeKey m "repository_type" "best_practices_file"
        (by decide),
      validatePathField_removeKey m "repository_type" "guidelines_file"
        (by decide),
      validateStrListField_removeKey m "repository_type" "context_enhancements"
        (by decide),
      validateBoolField_removeKey m "repository_type" "auto_discover_context"
        defaultMetadata.auto_discover_context (by decide),
      validateNatField_removeKey m "repository_type" "max_context_files"
        defaultMetadata.max_context_files (by decide),
      validateEnumField_invalid m "repository_type" repositoryTypes
        defaultMetadata.repository_type v hlk hv,
      validateEnumField_absent (removeKey m "repository_type") "repository_type"
        repositoryTypes defaultMetadata.repository_type
        (lookupKey_removeKey_self m "repository_type")]

/-- An out-of-vocabulary `maturity_level` yields the same validated
metadata record, in every field, as if the offending key were
absent. -/
theorem validateMetadata_invalid_ml (m : SectionTable) (v : String)
    (hlk : lookupKey m "maturity_level" = some (.str v))
    (hv : maturityLevels.contains v = false) :
    (validateMetadata m).metadata =
      (validateMetadata (removeKey m "maturity_level")).metadata := by
  simp only [validateMetadata]
  rw [validateBoolField_removeKey m "maturity_level" "enabled"
        defaultMetadata.enabled (by decide),
      parseTechStack_removeKey m "maturity_level" (by decide),
      validateEnumField_removeKey m "maturity_level" "repository_type"
        repositoryTypes defaultMetadata.repository_type (by decide),
      validateEnumField_removeKey m "maturity_level" "complexity_level"
        complexityLevels defaultMetadata.complexity_level (by decide),
      validateStringField_removeKey m "maturity_level" "custom_context"
        defaultMetadata.custom_context (by decide),
      validatePathField_removeKey m "maturity_level" "best_practices_file"
        (by decide),
      validatePathField_removeKey m "maturity_level" "guidelines_file"
        (by decide),
      validateStrListField_removeKey m "maturity_level" "context_enhancements"
        (by decide),
      validateBoolField_removeKey m "maturity_level" "auto_discover_context"
        defaultMetadata.auto_discover_context (by decide),
      validateNatField_removeKey m "maturity_level" "max_context_files"
        defaultMetadata.max_context_files (by decide),
      validateEnumField_invalid m "maturity_level" maturityLevels
        defaultMetadata.maturity_level v hlk hv,
      validateEnumField_absent (removeKey m "maturity_level") "maturity_level"
        maturityLevels defaultMetadata.maturity_level
        (lookupKey_removeKey_self m "maturity_level")]

/-- An out-of-vocabulary `complexity_level` yields the same validated
metadata record, in every field, as if the offending key were
absent. -/
theorem validateMetadata_invalid_cl (m : SectionTable) (v : String)
    (hlk : lookupKey m "complexity_level" = some (.str v))
    (hv : complexityLevels.contains v = false) :
    (validateMetadata m).metadata =
      (validateMetadata (removeKey m "complexity_level")).metadata := by
  simp only [validateMetadata]
  rw [validateBoolField_removeKey m "complexity_level" "enabled"
        defaultMetadata.enabled (by decide),
      parseTechStack_removeKey m "complexity_level" (by decide),
      validateEnumField_removeKey m "complexity_level" "repository_type"
        repositoryTypes defaultMetadata.repository_type (by decide),
      validateEnumField_removeKey m "complexity_level" "maturity_level"
        maturityLevels defaultMetadata.maturity_level (by decide),
      validateStringField_removeKey m "complexity_level" "custom_context"
        defaultMetadata.custom_context (by decide),
      validatePathField_removeKey m "complexity_level" "best_practices_file"
        (by decide),
      validatePathField_removeKey m "complexity_level" "guidelines_file"
        (by decide),
      validateStrListField_removeKey m "complexity_level" "context_enhancements"
        (by decide),
      validateBoolField_removeKey m "complexity_level" "auto_discover_context"
        defaultMetadata.auto_discover_context (by decide),
      validateNatField_removeKey m "complexity_level" "max_context_files"
        defaultMetadata.max_context_files (by decide),
      validateEnumField_invalid m "complexity_level" complexityLevels
        defaultMetadata.complexity_level v hlk hv,
      validateEnumField_absent (removeKey m "complexity_level") "complexity_level"
        complexityLevels defaultMetadata.complexity_level
        (lookupKey_removeKey_self m "complexity_level")]

/-- An out-of-vocabulary `repository_type` produces exactly one
warning under the `repository_type` key, naming section, key and
value. -/
theorem validateMetadata_one_warning_rt (m : SectionTable) (v : String)
    (hlk : lookupKey m "repository_type" = some (.str v))
    (hv : repositoryTypes.contains v = false) :
    (validateMetadata m).warnings.filter (fun w' => w'.key == "repository_type") =
      [⟨"repository_metadata", "repository_type", .str v⟩] := by
  have hrt := validateEnumField_invalid m "repository_type" repositoryTypes
    defaultMetadata.repository_type v hlk hv
  have hE := filter_key_ne _ "enabled" "repository_type"
    (validateBoolField_key m "enabled" defaultMetadata.enabled) (by decide)
  have hTS := filter_key_ne _ "technology_stack" "repository_type"
    (parseTechStack_key m) (by decide)
  have hML := filter_key_ne _ "maturity_level" "repository_type"
    (validateEnumField_key m "maturity_level" maturityLevels
      defaultMetadata.maturity_level) (by decide)
  have hCL := filter_key_ne _ "complexity_level" "repository_type"
    (validateEnumField_key m "complexity_level" complexityLevels
      defaultMetadata.complexity_level) (by decide)
  have hCC := filter_key_ne _ "custom_context" "repository_type"
    (validateStringField_key m "custom_context"
      defaultMetadata.custom_context) (by decide)
  have hBP := filter_key_ne _ "best_practices_file" "repository_type"
    (validatePathField_key m "best_practices_file") (by decide)
  have hGF := filter_key_ne _ "guidelines_file" "repository_type"
    (validatePathField_key m "guidelines_file") (by decide)
  have hCE := filter_key_ne _ "context_enhancements" "repository_type"
    (validateStrListField_key m "context_enhancements") (by decide)
  have hAD := filter_key_ne _ "auto_discover_context" "repository_type"
    (validateBoolField_key m "auto_discover_context"
      defaultMetadata.auto_discover_context) (by decide)
  have hMCF := filter_key_ne _ "max_context_files" "repository_type"
    (validateNatField_key m "max_context_files"
      defaultMetadata.max_context_files) (by decide)
  simp only [validateMetadata, List.filter_append, hrt, hE, hTS, hML, hCL,
    hCC, hBP, hGF, hCE, hAD, hMCF, List.nil_append, List.append_nil]
  rfl

/-- An out-of-vocabulary `maturity_level` produces exactly one warning
under the `maturity_level` key, naming section, key and value. -/
theorem validateMetadata_one_warning_ml (m : SectionTable) (v : String)
    (hlk : lookupKey m "maturity_level" = some (.str v))
    (hv : maturityLevels.contains v = false) :
    (validateMetadata m).warnings.filter (fun w' => w'.key == "maturity_level") =
      [⟨"repository_metadata", "maturity_level", .str v⟩] := by
  have hml := validateEnumField_invalid m "maturity_level" maturityLevels
    defaultMetadata.maturity_level v hlk hv
  have hE := filter_key_ne _ "enabled" "maturity_level"
    (validateBoolField_key m "enabled" defaultMetadata.enabled) (by decide)
  have hRT := filter_key_ne _ "repository_type" "maturity_level"
    (validateEnumField_key m "repository_type" repositoryTypes
      defaultMetadata.repository_type) (by decide)
  have hTS := filter_key_ne _ "technology_stack" "maturity_level"
    (parseTechStack_key m) (by decide)
  have hCL := filter_key_ne _ "complexity_level" "maturity_level"
    (validateEnumField_key m "complexity_level" complexityLevels
      defaultMetadata.complexity_level) (by decide)
  have hCC := filter_key_ne _ "custom_context" "maturity_level"
    (validateStringField_key m "custom_context"
      defaultMetadata.custom_context) (by decide)
  have hBP := filter_key_ne _ "best_practices_file" "maturity_level"
    (validatePathField_key m "best_practices_file") (by decide)
  have hGF := filter_key_ne _ "guidelines_file" "maturity_level"
    (validatePathField_key m "guidelines_file") (by decide)
  have hCE := filter_key_ne _ "context_enhancements" "maturity_level"
    (validateStrListField_key m "context_enhancements") (by decide)
  have hAD := filter_key_ne _ "auto_discover_context" "maturity_level"
    (validateBoolField_key m "auto_discover_context"
      defaultMetadata.auto_discover_context) (by decide)
  have hMCF := filter_key_ne _ "max_context_files" "maturity_level"
    (validateNatField_key m "max_context_files"
      defaultMetadata.max_context_files) (by decide)
  simp only [validateMetadata, List.filter_append, hml, hE, hRT, hTS, hCL,
    hCC, hBP, hGF, hCE, hAD, hMCF, List.nil_append, List.append_nil]
  rfl

/-- An out-of-vocabulary `complexity_level` produces exactly one
warning under the `complexity_level` key, naming section, key and
value. -/
theorem validateMetadata_one_warning_cl (m : SectionTable) (v : String)
    (hlk : lookupKey m "complexity_level" = some (.str v))
    (hv : complexityLevels.contains v = false) :
    (validateMetadata m).warnings.filter (fun w' => w'.key == "complexity_level") =
      [⟨"repository_metadata", "complexity_level", .str v⟩] := by
  have hcl := validateEnumField_invalid m "complexity_level" complexityLevels
    defaultMetadata.complexity_level v hlk hv
  have hE := filter_key_ne _ "enabled" "complexity_level"
    (validateBoolField_key m "enabled" defaultMetadata.enabled) (by decide)
  have hRT := filter_key_ne _ "repository_type" "complexity_level"
    (validateEnumField_key m "repository_type" repositoryTypes
      defaultMetadata.repository_type) (by decide)
  have hTS := filter_key_ne _ "technology_stack" "complexity_level"
    (parseTechStack_key m) (by decide)
  have hML := filter_key_ne _ "maturity_level" "complexity_level"
    (validateEnumField_key m "maturity_level" maturityLevels
      defaultMetadata.maturity_level) (by decide)
  have hCC := filter_key_ne _ "custom_context" "complexity_level"
    (validateStringField_key m "custom_context"
      defaultMetadata.custom_context) (by decide)
  have hBP := filter_key_ne _ "best_practices_file" "complexity_level"
    (validatePathField_key m "best_practices_file") (by decide)
  have hGF := filter_key_ne _ "guidelines_file" "complexity_level"
    (validatePathField_key m "guidelines_file") (by decide)
  have hCE := filter_key_ne _ "context_enhancements" "complexity_level"
    (validateStrListField_key m "context_enhancements") (by decide)
  have hAD := filter_key_ne _ "auto_discover_context" "complexity_level"
    (validateBoolField_key m "auto_discover_context"
      defaultMetadata.auto_discover_context) (by decide)
  have hMCF := filter_key_ne _ "max_context_files" "complexity_level"
    (validateNatField_key m "max_context_files"
      defaultMetadata.max_context_files) (by decide)
  simp only [validateMetadata, List.filter_append, hcl, hE, hRT, hTS, hML,
    hCC, hBP, hGF, hCE, hAD, hMCF, List.nil_append, List.append_nil]
  rfl

/-- C4: when the `repository_metadata` section assigns any of the enum
fields `repository_type`, `maturity_level` or `complexity_level` a
value outside that field's closed vocabulary, validation substitutes
the compiled-in default (`other`, `development`, `moderate`
respectively) for that single field and records exactly one
`ValidationWarning` naming the offending (section, key, value); the
validation of every other field proceeds unaffected — the whole
validated metadata record equals the one obtained with the offending
key removed — and unrecognized keys are retained as pass-through
values with an `UnknownKeyWarning`, never dropped. -/
theorem enum_validation_field_level (m : SectionTable) (v : String) :
    (lookupKey m "repository_type" = some (.str v) →
     repositoryTypes.contains v = false →
      (validateMetadata m).metadata.repository_type = "other" ∧
      (validateMetadata m).warnings.filter
        (fun w' => w'.key == "repository_type") =
        [⟨"repository_metadata", "repository_type", .str v⟩] ∧
      (validateMetadata m).metadata =
        (validateMetadata (removeKey m "repository_type")).metadata) ∧
    (lookupKey m "maturity_level" = some (.str v) →
     maturityLevels.contains v = false →
      (validateMetadata m).metadata.maturity_level = "development" ∧
      (validateMetadata m).warnings.filter
        (fun w' => w'.key == "maturity_level") =
        [⟨"repository_metadata", "maturity_level", .str v⟩] ∧
      (validateMetadata m).metadata =
        (validateMetadata (removeKey m "maturity_level")).metadata) ∧
    (lookupKey m "complexity_level" = some (.str v) →
     complexityLevels.contains v = false →
      (validateMetadata m).metadata.complexity_level = "moderate" ∧
      (validateMetadata m).warnings.filter
        (fun w' => w'.key == "complexity_level") =
        [⟨"repository_metadata", "complexity_level", .str v⟩] ∧
      (validateMetadata m).metadata =
        (validateMetadata (removeKey m "complexity_level")).metadata) ∧
    (∀ p ∈ m, recognizedKeys.contains p.1 = false →
      p ∈ (validateMetadata m).passthrough ∧
      (⟨"repository_metadata", p.1⟩ : UnknownKeyWarning) ∈
        (validateMetadata m).unknownWarnings) := by
  refine ⟨?_, ?_, ?_, ?_⟩
  · intro hlk hv
    refine ⟨?_, validateMetadata_one_warning_rt m v hlk hv,
      validateMetadata_invalid_rt m v hlk hv⟩
    simp only [validateMetadata]
    rw [validateEnumField_invalid m "repository_type" repositoryTypes
      defaultMetadata.repository_type v hlk hv]
    rfl
  · intro hlk hv
    refine ⟨?_, validateMetadata_one_warning_ml m v hlk hv,
      validateMetadata_invalid_ml m v hlk hv⟩
    simp only [validateMetadata]
    rw [validateEnumField_invalid m "maturity_level" maturityLevels
      defaultMetadata.maturity_level v hlk hv]
    rfl
  · intro hlk hv
    refine ⟨?_, validateMetadata_one_warning_cl m v hlk hv,
      validateMetadata_invalid_cl m v hlk hv⟩
    simp only [validateMetadata]
    rw [validateEnumField_invalid m "complexity_level" complexityLevels
      defaultMetadata.complexity_level v hlk hv]
    rfl
  · intro p hp hrec
    constructor
    · simp only [validateMetadata]
      exact List.mem_filter.mpr ⟨hp, by simpa using hrec⟩
    · simp only [validateMetadata]
      exact List.mem_map_of_mem _ (List.mem_filter.mpr ⟨hp, by simpa using hrec⟩)

/-- C4 (witness): concrete sections each declaring one enum field out
of vocabulary validate that field to its compiled-in default with
exactly one warning naming it, and an unrecognized key is retained as
a pass-through value. -/
theorem enum_validation_field_level_witness :
    (validateMetadata [("repository_type", ConfigValue.str "webapp"),
        ("technology_stack", ConfigValue.str "python"),
        ("mystery", ConfigValue.str "kept")]).metadata.repository_type = "other" ∧
    (validateMetadata [("repository_type", ConfigValue.str "webapp"),
        ("technology_stack", ConfigValue.str "python"),
        ("mystery", ConfigValue.str "kept")]).warnings.filter
      (fun w' => w'.key == "repository_type") =
      [⟨"repository_metadata", "repository_type", .str "webapp"⟩] ∧
    (validateMetadata [("maturity_level",
        ConfigValue.str "ancient")]).metadata.maturity_level = "development" ∧
    (validateMetadata [("maturity_level", ConfigValue.str "ancient")]).warnings.filter
      (fun w' => w'.key == "maturity_level") =
      [⟨"repository_metadata", "maturity_level", .str "ancient"⟩] ∧
    (validateMetadata [("complexity_level",
        ConfigValue.str "extreme")]).metadata.complexity_level = "moderate" ∧
    ("mystery", ConfigValue.str "kept") ∈
      (validateMetadata [("repository_type", ConfigValue.str "webapp"),
        ("technology_stack", ConfigValue.str "python"),
        ("mystery", ConfigValue.str "kept")]).passthrough :=
  ⟨((enum_validation_field_level [("repository_type", ConfigValue.str "webapp"),
      ("technology_stack", ConfigValue.str "python"),
      ("mystery", ConfigValue.str "kept")] "webapp").1 (by decide) (by decide)).1,
   ((enum_validation_field_level [("repository_type", ConfigValue.str "webapp"),
      ("technology_stack", ConfigValue.str "python"),
      ("mystery", ConfigValue.str "kept")] "webapp").1 (by decide) (by decide)).2.1,
   ((enum_validation_field_level [("maturity_level", ConfigValue.str "ancient")]
      "ancient").2.1 (by decide) (by decide)).1,
   ((enum_validation_field_level [("maturity_level", ConfigValue.str "ancient")]
      "ancient").2.1 (by decide) (by decide)).2.1,
   ((enum_validation_field_level [("complexity_level", ConfigValue.str "extreme")]
      "extreme").2.2.1 (by decide) (by decide)).1,
   ((enum_validation_field_level [("repository_type", ConfigValue.str "webapp"),
      ("technology_stack", ConfigValue.str "python"),
      ("mystery", ConfigValue.str "kept")] "webapp").2.2.2
      ("mystery", ConfigValue.str "kept") (by decide) (by decide)).1⟩
